import Mathlib

/-!
Verification of the notion_rag content-fetch and rendering pipeline.

The repository's blocks are Python dictionaries (parsed Notion API JSON), so
the data model is a JSON-like value type `JVal`.  The renderer
(`NotionProcessor._extract_text_from_block`, src/notion/processor.py) is
embedded as `extractTextFromBlockF`, a fuel-indexed total function whose
recursive calls each consume one unit of fuel; the recursion of the source
descends strictly into sub-values of the block, so `JVal.size block` fuel
always suffices, and the wrapper `extractTextFromBlock` fixes that budget.

The fetcher (`NotionAPI.get_page_content`, src/notion/api.py) is embedded as
`fetchChildrenGo`, also fuel-indexed; its expansion passes are higher-order
list recursions that receive the next-level fetch function as an argument.
The remote API is an explicit environment `NotionEnv` giving, per identifier,
the sequence of paginated responses the successive requests would return
(the continuation cursor of the source is implicit in that sequence order).
-/

/-- A JSON-like value: the shape of the Python dictionaries the repository
manipulates (Notion blocks, pages, database records). -/
inductive JVal where
  | null
  | bool (b : Bool)
  | num (n : Int)
  | str (s : String)
  | arr (xs : List JVal)
  | obj (kvs : List (String × JVal))

mutual

/-- Structural size of a JSON value, one unit per constructor: an executable
bound on the depth of any descent into sub-values. -/
def JVal.size : JVal → Nat
  | .null => 1
  | .bool _ => 1
  | .num _ => 1
  | .str _ => 1
  | .arr xs => 1 + sizeArr xs
  | .obj kvs => 1 + sizeObj kvs

/-- Combined size of the elements of an array value. -/
def sizeArr : List JVal → Nat
  | [] => 0
  | x :: xs => 1 + JVal.size x + sizeArr xs

/-- Combined size of the values of a dictionary value. -/
def sizeObj : List (String × JVal) → Nat
  | [] => 0
  | (_, v) :: rest => 1 + JVal.size v + sizeObj rest

end

/-- First-match key lookup in an association list, the semantics of Python
dictionary access for the unique-key dictionaries the API returns. -/
def lookupKV : List (String × JVal) → String → Option JVal
  | [], _ => none
  | (k', v) :: rest, k => if k' = k then some v else lookupKV rest k

/-- Python `d.get(k)`: `some` value when the key is present, `none` otherwise
(and `none` on non-dictionary values). -/
def JVal.get : JVal → String → Option JVal
  | .obj kvs, k => lookupKV kvs k
  | _, _ => none

/-- Replace the value at a key, keeping its position, or append the pair:
the semantics of Python `d[k] = v`. -/
def setKV : List (String × JVal) → String → JVal → List (String × JVal)
  | [], k, v => [(k, v)]
  | (k', w) :: rest, k, v =>
      if k' = k then (k', v) :: rest else (k', w) :: setKV rest k v

/-- Python `d[k] = v` on a dictionary value (non-dictionaries unchanged;
the source never reaches that case). -/
def JVal.set : JVal → String → JVal → JVal
  | .obj kvs, k, v => .obj (setKV kvs k v)
  | j, _, _ => j

/-- Python truthiness of a JSON value. -/
def JVal.truthy : JVal → Bool
  | .null => false
  | .bool b => b
  | .num n => n != 0
  | .str s => s != ""
  | .arr xs => !xs.isEmpty
  | .obj kvs => !kvs.isEmpty

/-- Truthiness of an optional lookup result (`none`, i.e. a missing key or a
`.get` miss, is falsy). -/
def truthyO (o : Option JVal) : Bool :=
  match o with
  | some v => v.truthy
  | none => false

/-- The string a Python f-string interpolates for a value.  Composite values
only occur at interpolation sites on inputs the source never produces, so
their repr is not modelled further. -/
def pyStr : JVal → String
  | .null => "None"
  | .bool true => "True"
  | .bool false => "False"
  | .num n => toString n
  | .str s => s
  | .arr _ => "<list>"
  | .obj _ => "<dict>"

/-- `d.get(k, default)` followed by f-string interpolation. -/
def pyStrD (o : Option JVal) (d : String) : String :=
  match o with
  | some v => pyStr v
  | none => d

/-- The string content of a lookup used in a `" ".join(...)`: joined elements
are plain-text strings in every input the source accepts. -/
def strD (o : Option JVal) : String :=
  match o with
  | some (.str s) => s
  | _ => ""

/-- The element list of an array value (`[]` otherwise). -/
def arrD (o : Option JVal) : List JVal :=
  match o with
  | some (.arr xs) => xs
  | _ => []

/-- The key/value pairs of a dictionary value (`[]` otherwise). -/
def objKvs (o : Option JVal) : List (String × JVal)  :=
  match o with
  | some (.obj kvs) => kvs
  | _ => []

/-- Whether an optional lookup result is the given string
(Python `d.get(k) == "literal"` and the dispatch comparisons). -/
def isStr (o : Option JVal) (s : String) : Bool :=
  match o with
  | some (.str t) => t == s
  | _ => false

/-- `" ".join(text_obj.get("plain_text", "") for text_obj in <rich text list>)`,
the rich-text flattening used throughout the renderer. -/
def plainJoin (o : Option JVal) : String :=
  " ".intercalate ((arrD o).map fun t => strD (t.get "plain_text"))

/-- Split a character list at newline characters, keeping empty segments:
the segment structure of Python `s.split("\n")`. -/
def splitLinesChars : List Char → List (List Char)
  | [] => [[]]
  | c :: rest =>
      if c = '\n' then [] :: splitLinesChars rest
      else
        match splitLinesChars rest with
        | [] => [[c]]
        | l :: ls => (c :: l) :: ls

/-- Python `s.split("\n")` (structurally recursive, unlike `String.splitOn`). -/
def splitLines (s : String) : List String :=
  (splitLinesChars s.data).map fun cs => String.mk cs

/-- Two-space indentation of every line:
`"\n".join(f"  {line}" for line in s.split("\n"))`. -/
def indent2 (s : String) : String :=
  "\n".intercalate ((splitLines s).map (fun line => "  " ++ line))

/-- Four-space indentation of every line (nested database page content). -/
def indent4 (s : String) : String :=
  "\n".intercalate ((splitLines s).map (fun line => "    " ++ line))

/-- Number of `|` characters in a string: Python `s.count("|")` for the
single-character pattern. -/
def countPipes (s : String) : Nat :=
  (s.toList.filter (fun c => c = '|')).length

/-- The block types the first dispatch group of the renderer shares
(processor.py line 32). -/
def textBlockTypes : List String :=
  ["paragraph", "heading_1", "heading_2", "heading_3",
   "bulleted_list_item", "numbered_list_item", "quote"]

/-- First property whose type is `title` and whose joined text is non-empty
(processor.py lines 167-172: the `break` sits under `if title_text`). -/
def firstNonemptyTitle : List (String × JVal) → Option String
  | [] => none
  | (_, pv) :: rest =>
      if isStr (pv.get "type") "title" then
        let t := plainJoin (pv.get "title")
        if t ≠ "" then some t else firstNonemptyTitle rest
      else firstNonemptyTitle rest

/-- Joined text of the first property whose type is `title`, empty when there
is none (processor.py lines 184-187 and 295-298: unconditional `break`). -/
def firstTitleText : List (String × JVal) → String
  | [] => ""
  | (_, pv) :: rest =>
      if isStr (pv.get "type") "title" then plainJoin (pv.get "title")
      else firstTitleText rest

/-- The `child_database` composite fragment (processor.py lines 139-200):
base label, schema override with a `Columns:` line, the expanded page count
and title list, and the fully rendered, four-space-indented page contents.
`render` is the recursive block renderer at the next fuel level. -/
def childDatabaseText (render : JVal → String) (block blockContent : JVal) :
    String :=
  let base := "Child database: " ++ pyStrD (blockContent.get "title") ""
  let t1 :=
    if (block.get "database_info").isSome then
      let dbi := (block.get "database_info").getD (.obj [])
      let dbTitle := dbi.get "title"
      let t0 := if truthyO dbTitle then "Database: " ++ plainJoin dbTitle else base
      let names := (objKvs (dbi.get "properties")).map (fun p => p.1)
      if names ≠ [] then t0 ++ "\nColumns: " ++ ", ".intercalate names else t0
    else base
  if truthyO (block.get "children") then
    let pages := arrD (block.get "children")
    let t2 := t1 ++ "\nContains " ++ toString pages.length ++ " pages:"
    let pageTitles := pages.filterMap fun p =>
      firstNonemptyTitle (objKvs (p.get "properties"))
    let t3 := if pageTitles ≠ [] then t2 ++ "\n- " ++ "\n- ".intercalate pageTitles
              else t2
    let detailed := pages.enum.filterMap fun ip =>
      if (ip.2.get "page_content").isSome then
        some ((arrD (ip.2.get "page_content")).foldl
          (fun acc cb =>
            let ct := render cb
            if ct ≠ "" then acc ++ indent4 ct ++ "\n" else acc)
          ("\n--- Page " ++ toString (ip.1 + 1) ++ ": " ++
            firstTitleText (objKvs (ip.2.get "properties")) ++ " ---\n"))
      else none
    if detailed ≠ [] then
      t3 ++ "\n\nDetailed page content:\n" ++ "\n".intercalate detailed
    else t3
  else t1

/-- The children-composition step (processor.py lines 206-273) applied after
a block's own fragment `text` is computed: column filtering for
`column_list`, row gathering and header/divider synthesis for `table`,
standard rendering otherwise; then newline joining, the table/no-indent and
column-label-replacement special cases, and two-space indentation. -/
def composeChildren (render : JVal → String) (blockType : String)
    (block blockContent : JVal) (text : String) : String :=
  if truthyO (block.get "children") then
    let children := arrD (block.get "children")
    let childTexts :=
      if blockType = "column_list" then
        -- lines 211-217: only column children, label fragments skipped
        children.filterMap fun cb =>
          if isStr (cb.get "type") "column" then
            let cc := render cb
            if cc ≠ "" ∧ cc ≠ "Column:" then some cc else none
          else none
      else if blockType = "table" then
        -- lines 218-248: gather rows, then header/divider synthesis
        let rows := children.filterMap fun rb =>
          if isStr (rb.get "type") "table_row" then
            let rc := render rb
            if rc ≠ "" then some rc else none
          else none
        if rows ≠ [] then
          let hasHeader := truthyO (blockContent.get "has_column_header")
          if hasHeader = true ∧ rows.length > 0 then
            match rows with
            | [] => []
            | headerRow :: restRows =>
              if restRows.length > 0 then
                let cellCount := countPipes headerRow - 1
                let divider :=
                  "| " ++ " | ".intercalate (List.replicate cellCount "---") ++ " |"
                headerRow :: divider :: restRows
              else [headerRow]
          else rows
        else []
      else
        -- lines 249-254: standard child processing
        children.filterMap fun cb =>
          let cc := render cb
          if cc ≠ "" then some cc else none
    if childTexts ≠ [] then
      let childText := "\n".intercalate childTexts
      if blockType = "table" then
        -- lines 259-261: tables stay unindented under their label
        if text ≠ "" then text ++ "\n" ++ childText else childText
      else
        -- line 264: indent child content for readability
        let childText2 := indent2 childText
        if blockType = "column_list" then childText2
        else if blockType = "column" then childText2
        else if text ≠ "" then text ++ "\n" ++ childText2 else childText2
    else text
  else text

/-- Fuel-indexed embedding of `NotionProcessor._extract_text_from_block`
(src/notion/processor.py lines 13-275).  Each recursive call consumes one
unit of fuel; the source's recursion descends strictly into sub-values of
`block`, so any fuel of at least `JVal.size block` reproduces it exactly
(fuel exhaustion, which those budgets never reach, yields `""`). -/
def extractTextFromBlockF : Nat → JVal → String
  | 0, _ => ""
  | n + 1, block =>
    -- lines 24-29: `block_type = block.get("type")`; bail out on a missing,
    -- falsy, or payload-less type (non-string type values cannot match a key)
    match block.get "type" with
    | some (.str blockType) =>
      if blockType = "" ∨ (block.get blockType).isNone = true then ""
      else
        let blockContent := (block.get blockType).getD .null
        -- lines 32-204: per-type fragment
        let text :=
          if blockType ∈ textBlockTypes then
            let t := plainJoin (blockContent.get "rich_text")
            if blockType = "heading_1" then "# " ++ t
            else if blockType = "heading_2" then "## " ++ t
            else if blockType = "heading_3" then "### " ++ t
            else if blockType = "bulleted_list_item" then "• " ++ t
            else if blockType = "numbered_list_item" then "1. " ++ t
            else if blockType = "quote" then "> " ++ t
            else t
          else if blockType = "code" then
            "Code (" ++ pyStrD (blockContent.get "language") "unknown" ++ "): " ++
              plainJoin (blockContent.get "rich_text")
          else if blockType = "image" then
            "Image: " ++ plainJoin (blockContent.get "caption")
          else if blockType = "to_do" then
            (if truthyO (blockContent.get "checked") then "☑" else "☐") ++ " " ++
              plainJoin (blockContent.get "rich_text")
          else if blockType = "toggle" then
            "Toggle: " ++ plainJoin (blockContent.get "rich_text")
          else if blockType = "callout" then
            "Callout " ++
              pyStrD (((blockContent.get "icon").getD (.obj [])).get "emoji") "" ++
              ": " ++ plainJoin (blockContent.get "rich_text")
          else if blockType = "table" then
            "Table:"
          else if blockType = "table_row" then
            -- lines 74-90: per-cell joined text, `| .. | .. |` row format
            let cells := arrD (blockContent.get "cells")
            let rowContent := cells.map fun cell =>
              if cell.truthy then
                " ".intercalate ((arrD (some cell)).map fun t => strD (t.get "plain_text"))
              else ""
            if rowContent ≠ [] then "| " ++ " | ".intercalate rowContent ++ " |"
            else "| Empty row |"
          else if blockType = "divider" then
            "---"
          else if blockType = "bookmark" then
            "Bookmark: " ++ pyStrD (blockContent.get "url") "" ++ " - " ++
              plainJoin (blockContent.get "caption")
          else if blockType = "equation" then
            "Equation: " ++ pyStrD (blockContent.get "expression") ""
          else if blockType = "file" then
            "File: " ++ plainJoin (blockContent.get "caption")
          else if blockType = "column_list" then
            "Column List:"
          else if blockType = "column" then
            "Column:"
          else if blockType = "synced_block" then
            if truthyO (blockContent.get "synced_from") then
              "Synced content (from block " ++
                pyStrD (((blockContent.get "synced_from").getD .null).get "block_id") "None" ++
                "):"
            else "Synced content (original):"
          else if blockType = "table_of_contents" then
            "Table of Contents"
          else if blockType = "embed" then
            "Embedded content: " ++ pyStrD (blockContent.get "url") ""
          else if blockType = "link_preview" then
            "Link preview: " ++ pyStrD (blockContent.get "url") ""
          else if blockType = "link_to_page" then
            if (blockContent.get "page_id").isSome then
              "Link to page: " ++ pyStrD (blockContent.get "page_id") "None"
            else if (blockContent.get "database_id").isSome then
              "Link to database: " ++ pyStrD (blockContent.get "database_id") "None"
            else ""
          else if blockType = "child_page" then
            "Child page: " ++ pyStrD (blockContent.get "title") ""
          else if blockType = "child_database" then
            -- lines 139-200: composite database rendering
            childDatabaseText (extractTextFromBlockF n) block blockContent
          else
            -- lines 202-204: unknown-type fallback
            "[" ++ blockType ++ "]"
        -- lines 206-273: compose attached children
        composeChildren (extractTextFromBlockF n) blockType block blockContent text
    | _ => ""

/-- `NotionProcessor._extract_text_from_block` itself: the fuel-indexed
embedding run with a structurally sufficient budget. -/
def extractTextFromBlock (block : JVal) : String :=
  extractTextFromBlockF block.size block

/-- One response of the paginated "list children" / "query database"
operations: HTTP status, the `results` items, and the `has_more` flag.  A
chain `List PageResp` is the sequence of responses the successive
cursor-following requests would receive, in request order. -/
structure PageResp where
  status : Nat
  results : List JVal
  hasMore : Bool

/-- The remote Notion API as an environment: per identifier, the response
chain of `blocks/<id>/children`, the `databases/<id>` metadata (`{}`, i.e.
`.obj []`, when that request fails), the response chain of
`databases/<id>/query`, and the `pages/<id>` metadata (`{}` on failure).
`fuel` is the recursion budget of the fuel-indexed fetcher; any budget at
least the store's reference depth reproduces the source's recursion. -/
structure NotionEnv where
  listChildren : String → List PageResp
  dbInfo : String → JVal
  dbPages : String → List PageResp
  pageInfo : String → JVal
  fuel : Nat

/-- The pagination loop shared by `get_page_content` (api.py lines 164-191)
and `fetch_database_pages` (lines 87-106): accumulate `results` of each
response, stop after a response with `has_more` false, and stop — keeping
what was already accumulated — at the first non-200 response. -/
def paginate : List PageResp → List JVal
  | [] => []
  | r :: rest =>
      if r.status ≠ 200 then []
      else if r.hasMore then r.results ++ paginate rest
      else r.results

/-- `NotionAPI.fetch_database_pages` (api.py lines 75-109). -/
def fetchDatabasePages (env : NotionEnv) (databaseId : String) : List JVal :=
  paginate (env.dbPages databaseId)

/-- Result of one fetch: the returned block sequence, the visited set after
the call (the source mutates one shared Python set; here it is threaded),
and the identifiers for which a children-listing request sequence was
actually issued, in issue order.  A guard return issues none. -/
structure FetchResult where
  blocks : List JVal
  visited : List String
  expanded : List String

/-- Python `block["children"]` after the `if "children" not in block:
block["children"] = []` initialisation: the existing children list or `[]`. -/
def childrenArr (b : JVal) : List JVal :=
  arrD (b.get "children")

/-- `block["children"].extend(new)` together with that initialisation. -/
def extendChildren (b : JVal) (new : List JVal) : JVal :=
  b.set "children" (.arr (childrenArr b ++ new))

/-- Inner loop of the `child_database` pass (api.py lines 213-223): append
each database page as a child, and, when its id is truthy and unvisited,
fetch its content into the page's `page_content`.  `fetch` is the recursive
children fetch at the next fuel level. -/
def attachDatabasePages (fetch : String → List String → FetchResult) :
    List JVal → List String → FetchResult
  | [], visited => ⟨[], visited, []⟩
  | page :: rest, visited =>
      match page.get "id" with
      | some (.str pid) =>
          if pid ≠ "" ∧ pid ∉ visited then
            let rc := fetch pid visited
            let page' :=
              page.set "page_content" (.arr (arrD (page.get "page_content") ++ rc.blocks))
            let rr := attachDatabasePages fetch rest rc.visited
            ⟨page' :: rr.blocks, rr.visited, rc.expanded ++ rr.expanded⟩
          else
            let rr := attachDatabasePages fetch rest visited
            ⟨page :: rr.blocks, rr.visited, rr.expanded⟩
      | _ =>
          -- a page without a string id is appended unchanged (its content
          -- fetch is guarded by the truthiness test of the source)
          let rr := attachDatabasePages fetch rest visited
          ⟨page :: rr.blocks, rr.visited, rr.expanded⟩

/-- First pass of `get_page_content` (api.py lines 193-223): for every
`child_database` block with a truthy id, attach the database's metadata
(when that request succeeds) and its pages (fetched via the paginated query),
expanding each page's content. -/
def expandDatabases (env : NotionEnv)
    (fetch : String → List String → FetchResult) :
    List JVal → List String → FetchResult
  | [], visited => ⟨[], visited, []⟩
  | b :: bs, visited =>
      if isStr (b.get "type") "child_database" then
        match b.get "id" with
        | some (.str did) =>
            if did ≠ "" then
              let info := env.dbInfo did
              let b1 := if info.truthy then b.set "database_info" info else b
              let pages := fetchDatabasePages env did
              let rp := attachDatabasePages fetch pages visited
              let b2 := b1.set "children" (.arr (childrenArr b1 ++ rp.blocks))
              let rr := expandDatabases env fetch bs rp.visited
              ⟨b2 :: rr.blocks, rr.visited, rp.expanded ++ rr.expanded⟩
            else
              let rr := expandDatabases env fetch bs visited
              ⟨b :: rr.blocks, rr.visited, rr.expanded⟩
        | _ =>
            let rr := expandDatabases env fetch bs visited
            ⟨b :: rr.blocks, rr.visited, rr.expanded⟩
      else
        let rr := expandDatabases env fetch bs visited
        ⟨b :: rr.blocks, rr.visited, rr.expanded⟩

/-- Column expansion inside the `column_list` case (api.py lines 264-270):
every column child that itself has children gets them fetched and attached. -/
def expandColumns (fetch : String → List String → FetchResult) :
    List JVal → List String → FetchResult
  | [], visited => ⟨[], visited, []⟩
  | c :: cs, visited =>
      if isStr (c.get "type") "column" ∧ truthyO (c.get "has_children") then
        match c.get "id" with
        | some (.str cid) =>
            let rc := fetch cid visited
            let c' := extendChildren c rc.blocks
            let rr := expandColumns fetch cs rc.visited
            ⟨c' :: rr.blocks, rr.visited, rc.expanded ++ rr.expanded⟩
        | _ =>
            let rr := expandColumns fetch cs visited
            ⟨c :: rr.blocks, rr.visited, rr.expanded⟩
      else
        let rr := expandColumns fetch cs visited
        ⟨c :: rr.blocks, rr.visited, rr.expanded⟩

/-- Second pass of `get_page_content` (api.py lines 225-277): for every block
whose `has_children` is truthy, dispatch by type — synced-block reference
substitution, table row fetch, two-level column-list expansion, and the
uniform recursive fetch for every other type. -/
def expandChildrenList (fetch : String → List String → FetchResult) :
    List JVal → List String → FetchResult
  | [], visited => ⟨[], visited, []⟩
  | b :: bs, visited =>
      if truthyO (b.get "has_children") then
        if isStr (b.get "type") "synced_block" then
          let sd := (b.get "synced_block").getD (.obj [])
          if truthyO (sd.get "synced_from") then
            match ((sd.get "synced_from").getD .null).get "block_id" with
            | some (.str oid) =>
                if oid ≠ "" ∧ oid ∉ visited then
                  let rc := fetch oid visited
                  let rr := expandChildrenList fetch bs rc.visited
                  ⟨extendChildren b rc.blocks :: rr.blocks, rr.visited,
                    rc.expanded ++ rr.expanded⟩
                else
                  let rr := expandChildrenList fetch bs visited
                  ⟨b :: rr.blocks, rr.visited, rr.expanded⟩
            | _ =>
                let rr := expandChildrenList fetch bs visited
                ⟨b :: rr.blocks, rr.visited, rr.expanded⟩
          else
            match b.get "id" with
            | some (.str bid) =>
                let rc := fetch bid visited
                let rr := expandChildrenList fetch bs rc.visited
                ⟨extendChildren b rc.blocks :: rr.blocks, rr.visited,
                  rc.expanded ++ rr.expanded⟩
            | _ =>
                let rr := expandChildrenList fetch bs visited
                ⟨b :: rr.blocks, rr.visited, rr.expanded⟩
        else if isStr (b.get "type") "table" then
          match b.get "id" with
          | some (.str bid) =>
              let rc := fetch bid visited
              let rr := expandChildrenList fetch bs rc.visited
              ⟨extendChildren b rc.blocks :: rr.blocks, rr.visited,
                rc.expanded ++ rr.expanded⟩
          | _ =>
              let rr := expandChildrenList fetch bs visited
              ⟨b :: rr.blocks, rr.visited, rr.expanded⟩
        else if isStr (b.get "type") "column_list" then
          match b.get "id" with
          | some (.str bid) =>
              let rc := fetch bid visited
              let b1 := extendChildren b rc.blocks
              let rcols := expandColumns fetch (childrenArr b1) rc.visited
              let b2 := b1.set "children" (.arr rcols.blocks)
              let rr := expandChildrenList fetch bs rcols.visited
              ⟨b2 :: rr.blocks, rr.visited,
                rc.expanded ++ rcols.expanded ++ rr.expanded⟩
          | _ =>
              let rr := expandChildrenList fetch bs visited
              ⟨b :: rr.blocks, rr.visited, rr.expanded⟩
        else
          match b.get "id" with
          | some (.str bid) =>
              let rc := fetch bid visited
              let rr := expandChildrenList fetch bs rc.visited
              ⟨extendChildren b rc.blocks :: rr.blocks, rr.visited,
                rc.expanded ++ rr.expanded⟩
          | _ =>
              let rr := expandChildrenList fetch bs visited
              ⟨b :: rr.blocks, rr.visited, rr.expanded⟩
      else
        let rr := expandChildrenList fetch bs visited
        ⟨b :: rr.blocks, rr.visited, rr.expanded⟩

/-- Fuel-indexed embedding of `NotionAPI.get_page_content`
(src/notion/api.py lines 137-279): visited-set guard, pagination, the
`child_database` pass, then the `has_children` pass.  Each nested fetch runs
at one lower fuel level; budgets of at least the store's reference depth
reproduce the source (whose recursion the visited set keeps finite). -/
def fetchChildrenGo (env : NotionEnv) : Nat → String → List String → FetchResult
  | 0, _, visited => ⟨[], visited, []⟩
  | n + 1, blockId, visited =>
      -- lines 154-157: skip already visited blocks, no request issued
      if blockId ∈ visited then ⟨[], visited, []⟩
      else
        let visited1 := blockId :: visited
        let blocks := paginate (env.listChildren blockId)
        let r1 := expandDatabases env (fetchChildrenGo env n) blocks visited1
        let r2 := expandChildrenList (fetchChildrenGo env n) r1.blocks r1.visited
        ⟨r2.blocks, r2.visited, blockId :: (r1.expanded ++ r2.expanded)⟩

/-- `NotionAPI.get_page_content` run at the environment's recursion budget. -/
def getPageContent (env : NotionEnv) (blockId : String) (visited : List String) :
    FetchResult :=
  fetchChildrenGo env env.fuel blockId visited

/-- The langchain `Document` the processor produces: rendered text plus a
flattened metadata map (built by successive dictionary assignment). -/
structure Document where
  page_content : String
  metadata : List (String × JVal)

/-- Render the non-empty fragments of a block sequence, in order
(processor.py lines 300-305 and 377-390). -/
def renderedFragments (pageContent : List JVal) : List String :=
  pageContent.filterMap fun b =>
    let t := extractTextFromBlock b
    if t ≠ "" then some t else none

/-- Metadata flattening of one typed page property
(processor.py lines 319-345): the scalar projection stored per type, `none`
when the property contributes nothing. -/
def propertyMetadata (pv : JVal) : Option JVal :=
  let propType := pv.get "type"
  if isStr propType "rich_text" then some (.str (plainJoin (pv.get "rich_text")))
  else if isStr propType "number" then some ((pv.get "number").getD (.num 0))
  else if isStr propType "select" then
    let selectObj := (pv.get "select").getD (.obj [])
    if selectObj.truthy then some ((selectObj.get "name").getD (.str "")) else none
  else if isStr propType "multi_select" then
    let objs := arrD (pv.get "multi_select")
    if ¬ objs.isEmpty then some (.arr (objs.map fun o => (o.get "name").getD (.str "")))
    else none
  else if isStr propType "date" then
    let dateObj := (pv.get "date").getD (.obj [])
    if dateObj.truthy then some ((dateObj.get "start").getD (.str "")) else none
  else if isStr propType "checkbox" then some ((pv.get "checkbox").getD (.bool false))
  else if isStr propType "url" then some ((pv.get "url").getD (.str ""))
  else if isStr propType "email" then some ((pv.get "email").getD (.str ""))
  else if isStr propType "phone_number" then some ((pv.get "phone_number").getD (.str ""))
  else none

/-- `NotionProcessor.process_page_to_document`
(src/notion/processor.py lines 277-347). -/
def processPageToDocument (page : JVal) (pageContent : List JVal) : Document :=
  let properties := objKvs (page.get "properties")
  let pageId := (page.get "id").getD (.str "")
  let title := firstTitleText properties
  let content := "\n".intercalate (renderedFragments pageContent)
  let baseMetadata : List (String × JVal) :=
    [("page_id", pageId), ("title", .str title),
     ("url", (page.get "url").getD (.str "")),
     ("created_time", (page.get "created_time").getD (.str "")),
     ("last_edited_time", (page.get "last_edited_time").getD (.str ""))]
  let metadata := properties.foldl
    (fun acc nv =>
      match propertyMetadata nv.2 with
      | some v => setKV acc nv.1 v
      | none => acc)
    baseMetadata
  ⟨title ++ "\n\n" ++ content, metadata⟩

/-- `NotionProcessor.process_direct_page_to_document`
(src/notion/processor.py lines 349-406); its `page_info` emptiness guard is
discharged by the caller (notion_rag.py line 86) before this runs. -/
def processDirectPageToDocument (pageInfo : JVal) (pageContent : List JVal) :
    Document :=
  let pageId := (pageInfo.get "id").getD (.str "")
  let pageTitle :=
    if (pageInfo.get "properties").isSome then
      firstTitleText (objKvs (pageInfo.get "properties"))
    else ""
  let hasDatabases := pageContent.any fun b => isStr (b.get "type") "child_database"
  let content := "\n".intercalate (renderedFragments pageContent)
  let metadata : List (String × JVal) :=
    [("page_id", pageId), ("title", .str pageTitle),
     ("url", (pageInfo.get "url").getD (.str "")),
     ("created_time", (pageInfo.get "created_time").getD (.str "")),
     ("last_edited_time", (pageInfo.get "last_edited_time").getD (.str "")),
     ("has_database_content", .bool hasDatabases)]
  ⟨pageTitle ++ "\n\n" ++ content, metadata⟩

/-- Configuration state a successfully constructed `NotionRAG` holds. -/
structure RAGConfig where
  notionApiKey : String
  databaseIds : List String
  pageIds : List String

/-- The error `NotionRAG.__init__` raises when no credential resolves
(src/notion/notion_rag.py line 47). -/
def missingKeyError : String :=
  "Notion API key is required. Set NOTION_API_KEY in .env file."

/-- `NotionRAG.__init__` (src/notion/notion_rag.py lines 27-53): resolve the
key as `notion_api_key or os.getenv("NOTION_API_KEY")` (Python `or`, so an
empty string falls through), and raise `ValueError` when the result is falsy
— before the `NotionAPI` client is built or any request made. -/
def notionRagInit (notionApiKey : Option String) (osEnvKey : Option String)
    (databaseIds pageIds : Option (List String)) : Except String RAGConfig :=
  let key := match notionApiKey with
    | some s => if s ≠ "" then some s else osEnvKey
    | none => osEnvKey
  match key with
  | some s =>
      if s = "" then .error missingKeyError
      else .ok ⟨s, databaseIds.getD [], pageIds.getD []⟩
  | none => .error missingKeyError

/-- `NotionRAG.process_page_to_document` (notion_rag.py lines 57-69):
fetch the page's content with a fresh visited set, then render. -/
def ragProcessPage (env : NotionEnv) (page : JVal) : Document :=
  let pageId := strD (page.get "id")
  let pageContent := (getPageContent env pageId []).blocks
  processPageToDocument page pageContent

/-- The `ValueError` text `NotionRAG.process_direct_page_to_document` raises
when page resolution yields nothing (notion_rag.py line 87). -/
def pageNotFoundMsg (pageId : String) : String :=
  "Could not retrieve page info for page ID: " ++ pageId ++
    ". Please check if the page ID is correct and you have access to it."

/-- `NotionRAG.process_direct_page_to_document` (notion_rag.py lines 71-92)
together with the remote operations it performs, as a request log:
resolve the page (one `pages/<id>` request), fail with `ValueError` when that
yields nothing, otherwise fetch content with a fresh visited set and render. -/
def ragProcessDirectPage (env : NotionEnv) (pageId : String) :
    Except String Document × List String :=
  let info := env.pageInfo pageId
  if ¬ info.truthy then
    (.error (pageNotFoundMsg pageId), ["retrieve_page " ++ pageId])
  else
    let r := getPageContent env pageId []
    (.ok (processDirectPageToDocument info r.blocks),
     ("retrieve_page " ++ pageId) :: r.expanded.map (fun i => "list_children " ++ i))

/-- One database root of `index_notion_content` (notion_rag.py lines
106-115): query the database's pages and process each into a document. -/
def indexDatabaseRoot (env : NotionEnv) (databaseId : String) :
    List Document × List String :=
  let pages := fetchDatabasePages env databaseId
  (pages.map (ragProcessPage env),
   ("query_database " ++ databaseId) ::
     (pages.map fun p =>
       (getPageContent env (strD (p.get "id")) []).expanded.map
         (fun i => "list_children " ++ i)).flatten)

/-- The per-page loop of `index_notion_content` (notion_rag.py lines
117-125): each page id is processed in its own `try`; a failure is reported
for that id (the printed error line) and the loop continues. -/
def indexPagesLoop (env : NotionEnv) :
    List String → List Document × List String × List String
  | [] => ([], [], [])
  | pid :: rest =>
      let (res, reqs) := ragProcessDirectPage env pid
      let (ds, es, rs) := indexPagesLoop env rest
      match res with
      | .ok d => (d :: ds, es, reqs ++ rs)
      | .error e =>
          (ds, ("Error processing page " ++ pid ++ ": " ++ e) :: es, reqs ++ rs)

/-- `NotionRAG.index_notion_content` (notion_rag.py lines 94-138): database
roots first, then direct pages; returns `none` when no document was produced
(the bare `return` of line 129) and otherwise the documents' rendered
contents.  Also returned: the printed per-page error reports and the request
log. -/
def indexNotionContent (env : NotionEnv) (databaseIds pageIds : List String) :
    Option (List String) × List String × List String :=
  let dbPart := databaseIds.map (indexDatabaseRoot env)
  let dbDocs := (dbPart.map (fun p => p.1)).flatten
  let dbReqs := (dbPart.map (fun p => p.2)).flatten
  let (pageDocs, errs, pageReqs) := indexPagesLoop env pageIds
  let allDocs := dbDocs ++ pageDocs
  (if allDocs.isEmpty then none else some (allDocs.map (fun d => d.page_content)),
   errs, dbReqs ++ pageReqs)

/-- The body of a `/notion_content` request (src/main.py lines 24-27). -/
structure NotionContentRequest where
  notion_api_key : Option String
  database_ids : Option (List String)
  page_ids : Option (List String)

/-- `process_notion_content` (src/main.py lines 33-66): construct `NotionRAG`
(a `ValueError` becomes an HTTP 400 with the error text), index, and join the
contents with blank lines.  Result: (status, body) plus the request log —
empty on the 400 path, where indexing is never reached. -/
def processNotionContent (osEnvKey : Option String) (env : NotionEnv)
    (req : NotionContentRequest) : (Nat × String) × List String :=
  match notionRagInit req.notion_api_key osEnvKey
      (some (req.database_ids.getD [])) (some (req.page_ids.getD [])) with
  | .error ve => ((400, ve), [])
  | .ok cfg =>
      let (contents, _errs, reqs) := indexNotionContent env cfg.databaseIds cfg.pageIds
      let combined := match contents with
        | some l =>
            if ¬ l.isEmpty then "\n\n".intercalate l
            else "No content found or processed."
        | none => "No content found or processed."
      ((200, combined), reqs)

/-- A rich-text run carrying one plain-text segment. -/
def rtext (s : String) : JVal := .obj [("plain_text", .str s)]

/-- A paragraph block with one rich-text segment. -/
def paraBlock (s : String) : JVal :=
  .obj [("type", .str "paragraph"),
        ("paragraph", .obj [("rich_text", .arr [rtext s])])]

/-- A `table_row` block with two one-segment cells. -/
def rowBlock (a b : String) : JVal :=
  .obj [("type", .str "table_row"),
        ("table_row", .obj [("cells", .arr [.arr [rtext a], .arr [rtext b]])])]

/-- The table of spec §8 item 4: `has_column_header = true` and the two rows
`["A","B"]` and `["1","2"]` attached as children. -/
def tableExample : JVal :=
  .obj [("type", .str "table"),
        ("table", .obj [("has_column_header", .bool true)]),
        ("children", .arr [rowBlock "A" "B", rowBlock "1" "2"])]

/-- Every type string the renderer's dispatch recognizes; anything else falls
to the `[<type>]` branch (processor.py lines 202-204). -/
def recognizedBlockTypes : List String :=
  textBlockTypes ++
  ["code", "image", "to_do", "toggle", "callout", "table", "table_row",
   "divider", "bookmark", "equation", "file", "column_list", "column",
   "synced_block", "table_of_contents", "embed", "link_preview",
   "link_to_page", "child_page", "child_database"]

/-- Every JSON value has positive structural size. -/
theorem JVal.size_pos (v : JVal) : 1 ≤ v.size := by
  cases v <;> simp only [JVal.size] <;> omega

/-- A value found by key lookup is no larger than the dictionary body. -/
theorem lookupKV_size_le {kvs : List (String × JVal)} {key : String} {v : JVal}
    (h : lookupKV kvs key = some v) : v.size ≤ sizeObj kvs := by
  induction kvs with
  | nil => simp [lookupKV] at h
  | cons kv rest ih =>
      obtain ⟨k', w⟩ := kv
      simp only [lookupKV] at h
      split at h
      · injection h with h
        subst h
        simp only [sizeObj]
        omega
      · have := ih h
        simp only [sizeObj]
        omega

/-- A value read through `JVal.get` is strictly smaller than its holder. -/
theorem JVal.get_size_lt {b : JVal} {key : String} {v : JVal}
    (h : b.get key = some v) : v.size < b.size := by
  cases b <;> simp [JVal.get] at h
  have hle := lookupKV_size_le h
  simp only [JVal.size]
  omega

/-- An element of an array value is no larger than the array body. -/
theorem mem_sizeArr_le {xs : List JVal} {x : JVal} (h : x ∈ xs) :
    x.size ≤ sizeArr xs := by
  induction xs with
  | nil => simp at h
  | cons y ys ih =>
      rcases List.mem_cons.mp h with rfl | h2
      · simp only [sizeArr]; omega
      · have := ih h2
        simp only [sizeArr]
        omega

/-- A member of the array stored under a key is strictly smaller than the
holding block: the bound behind every recursive descent of the renderer. -/
theorem mem_arrD_get_size_lt {b : JVal} {key : String} {x : JVal}
    (hx : x ∈ arrD (b.get key)) : x.size < b.size := by
  cases hget : b.get key with
  | none => rw [hget] at hx; simp [arrD] at hx
  | some c =>
      rw [hget] at hx
      have hc := JVal.get_size_lt hget
      cases c <;> simp [arrD] at hx
      have hle := mem_sizeArr_le hx
      simp only [JVal.size] at hc
      omega

/-- The payload of an `enumFrom` entry is a member of the base list. -/
theorem mem_enumFrom_snd {α : Type} :
    ∀ (l : List α) (i : Nat) (p : Nat × α), p ∈ l.enumFrom i → p.2 ∈ l := by
  intro l
  induction l with
  | nil => intro i p h; simp [List.enumFrom] at h
  | cons a as ih =>
      intro i p h
      simp only [List.enumFrom, List.mem_cons] at h
      rcases h with rfl | h2
      · simp
      · exact List.mem_cons_of_mem a (ih (i + 1) p h2)

/-- The payload of an `enum` entry is a member of the base list. -/
theorem mem_enum_snd {α : Type} (l : List α) (p : Nat × α)
    (h : p ∈ l.enum) : p.2 ∈ l :=
  mem_enumFrom_snd l 0 p h

/-- `childDatabaseText` consults the renderer only at the `page_content`
blocks nested below the block's children, so renderers agreeing there give
the same composite fragment. -/
theorem childDatabaseText_congr (r1 r2 : JVal → String)
    (block blockContent : JVal)
    (h : ∀ p ∈ arrD (block.get "children"),
         ∀ cb ∈ arrD (p.get "page_content"), r1 cb = r2 cb) :
    childDatabaseText r1 block blockContent =
      childDatabaseText r2 block blockContent := by
  have hdet :
      (arrD (block.get "children")).enum.filterMap (fun ip =>
        if (ip.2.get "page_content").isSome then
          some ((arrD (ip.2.get "page_content")).foldl
            (fun acc cb =>
              let ct := r1 cb
              if ct ≠ "" then acc ++ indent4 ct ++ "\n" else acc)
            ("\n--- Page " ++ toString (ip.1 + 1) ++ ": " ++
              firstTitleText (objKvs (ip.2.get "properties")) ++ " ---\n"))
        else none) =
      (arrD (block.get "children")).enum.filterMap (fun ip =>
        if (ip.2.get "page_content").isSome then
          some ((arrD (ip.2.get "page_content")).foldl
            (fun acc cb =>
              let ct := r2 cb
              if ct ≠ "" then acc ++ indent4 ct ++ "\n" else acc)
            ("\n--- Page " ++ toString (ip.1 + 1) ++ ": " ++
              firstTitleText (objKvs (ip.2.get "properties")) ++ " ---\n"))
        else none) := by
    apply List.filterMap_congr
    intro ip hip
    have hp := mem_enum_snd _ _ hip
    cases hsome : (ip.2.get "page_content").isSome
    · simp [hsome]
    · simp only [hsome, if_true]
      congr 1
      apply List.foldl_ext
      intro acc cb hcb
      rw [h ip.2 hp cb hcb]
  simp only [childDatabaseText, hdet]

/-- `composeChildren` consults the renderer only at the block's children, so
renderers agreeing there compose identically. -/
theorem composeChildren_congr (r1 r2 : JVal → String) (blockType : String)
    (block blockContent : JVal) (text : String)
    (h : ∀ cb ∈ arrD (block.get "children"), r1 cb = r2 cb) :
    composeChildren r1 blockType block blockContent text =
      composeChildren r2 blockType block blockContent text := by
  have hcol :
      (arrD (block.get "children")).filterMap (fun cb =>
        if isStr (cb.get "type") "column" then
          let cc := r1 cb
          if cc ≠ "" ∧ cc ≠ "Column:" then some cc else none
        else none) =
      (arrD (block.get "children")).filterMap (fun cb =>
        if isStr (cb.get "type") "column" then
          let cc := r2 cb
          if cc ≠ "" ∧ cc ≠ "Column:" then some cc else none
        else none) := by
    apply List.filterMap_congr
    intro cb hcb
    simp only [h cb hcb]
  have hrow :
      (arrD (block.get "children")).filterMap (fun rb =>
        if isStr (rb.get "type") "table_row" then
          let rc := r1 rb
          if rc ≠ "" then some rc else none
        else none) =
      (arrD (block.get "children")).filterMap (fun rb =>
        if isStr (rb.get "type") "table_row" then
          let rc := r2 rb
          if rc ≠ "" then some rc else none
        else none) := by
    apply List.filterMap_congr
    intro rb hrb
    simp only [h rb hrb]
  have hdef :
      (arrD (block.get "children")).filterMap (fun cb =>
        let cc := r1 cb
        if cc ≠ "" then some cc else none) =
      (arrD (block.get "children")).filterMap (fun cb =>
        let cc := r2 cb
        if cc ≠ "" then some cc else none) := by
    apply List.filterMap_congr
    intro cb hcb
    simp only [h cb hcb]
  simp only [composeChildren, hcol, hrow, hdef]

/-- The renderer is fuel-stable: any two budgets of at least the block's
structural size give the same text.  The budget never binds, so
`extractTextFromBlock` (run at `JVal.size block`) is the fixpoint semantics
of the source recursion. -/
theorem extractTextFromBlockF_stable :
    ∀ (k : Nat) (b : JVal) (n m : Nat), b.size ≤ k → b.size ≤ n → b.size ≤ m →
      extractTextFromBlockF n b = extractTextFromBlockF m b := by
  intro k
  induction k with
  | zero => intro b n m hk _ _; have := JVal.size_pos b; omega
  | succ k ih =>
      intro b n m hk hn hm
      have hpos := JVal.size_pos b
      obtain ⟨n', rfl⟩ : ∃ n', n = n' + 1 := ⟨n - 1, by omega⟩
      obtain ⟨m', rfl⟩ : ∃ m', m = m' + 1 := ⟨m - 1, by omega⟩
      have hchild : ∀ cb ∈ arrD (b.get "children"),
          extractTextFromBlockF n' cb = extractTextFromBlockF m' cb := by
        intro cb hcb
        have hlt := mem_arrD_get_size_lt hcb
        exact ih cb n' m' (by omega) (by omega) (by omega)
      have hpage : ∀ p ∈ arrD (b.get "children"),
          ∀ cb ∈ arrD (p.get "page_content"),
          extractTextFromBlockF n' cb = extractTextFromBlockF m' cb := by
        intro p hp cb hcb
        have h1 := mem_arrD_get_size_lt hp
        have h2 := mem_arrD_get_size_lt hcb
        exact ih cb n' m' (by omega) (by omega) (by omega)
      have hcdb : ∀ content : JVal,
          childDatabaseText (extractTextFromBlockF n') b content =
            childDatabaseText (extractTextFromBlockF m') b content :=
        fun content => childDatabaseText_congr _ _ b content hpage
      have hcomp : ∀ (bt : String) (content : JVal) (text : String),
          composeChildren (extractTextFromBlockF n') bt b content text =
            composeChildren (extractTextFromBlockF m') bt b content text :=
        fun bt content text => composeChildren_congr _ _ bt b content text hchild
      simp only [extractTextFromBlockF]
      cases htype : b.get "type" with
      | none => rfl
      | some tv =>
          cases tv with
          | str t => simp only [hcdb, hcomp]
          | null => rfl
          | bool x => rfl
          | num x => rfl
          | arr xs => rfl
          | obj kvs => rfl

/-- `extractTextFromBlock` equals the fuel-indexed renderer at every
sufficient budget. -/
theorem extractTextFromBlock_eq_fuel (b : JVal) (n : Nat) (hn : b.size ≤ n) :
    extractTextFromBlock b = extractTextFromBlockF n b :=
  extractTextFromBlockF_stable n b b.size n hn (Nat.le_refl _) hn

/-- A `column` block holding one child block. -/
def columnBlockOf (inner : JVal) : JVal :=
  .obj [("type", .str "column"), ("column", .obj []),
        ("children", .arr [inner])]

/-- A `column_list` with one column containing the paragraph `hi`. -/
def columnListExample : JVal :=
  .obj [("type", .str "column_list"), ("column_list", .obj []),
        ("children", .arr [columnBlockOf (paraBlock "hi")])]

/-- A `column_list` with two columns and one stray non-column child. -/
def columnListTwoExample : JVal :=
  .obj [("type", .str "column_list"), ("column_list", .obj []),
        ("children", .arr [columnBlockOf (paraBlock "left"), paraBlock "stray",
                           columnBlockOf (paraBlock "right")])]

/-- C1 (counterexample): for the spec's two-row header table, the renderer
emits the parent `Table:` label line above the three table lines — the
output is not the three-line form the claim states. -/
theorem c1_table_render_counterexample :
    extractTextFromBlock tableExample =
      "Table:\n| A | B |\n| --- | --- |\n| 1 | 2 |" ∧
    extractTextFromBlock tableExample ≠
      "| A | B |\n| --- | --- |\n| 1 | 2 |" :=
  ⟨rfl, by decide⟩

/-- C1 (amended): for a table Block whose payload has `has_column_header =
true` and whose children are the two two-cell rows rendering to `A`,`B` and
`1`,`2`, the renderer returns exactly four newline-joined lines — the
retained parent label `Table:` followed by `| A | B |`, `| --- | --- |`,
`| 1 | 2 |` — all unindented. -/
theorem c1_table_render_amended :
    extractTextFromBlock tableExample =
      "Table:\n| A | B |\n| --- | --- |\n| 1 | 2 |" := rfl

/-- C3 (counterexample): for a column_list whose single column holds the
paragraph `hi`, the renderer emits the column body indented by two further
spaces (`"    hi"`), not the direct unindented concatenation the claim
states (which would be `"  hi"`, the column's rendered body, or `"hi"`). -/
theorem c3_column_list_counterexample :
    extractTextFromBlock columnListExample = "    hi" ∧
    extractTextFromBlock columnListExample ≠ "  hi" ∧
    extractTextFromBlock columnListExample ≠ "hi" :=
  ⟨rfl, by decide, by decide⟩

/-- C3 (amended): for every column_list Block with attached children among
which at least one column-typed child contributes a fragment (one that is
neither empty nor the bare `Column:` label), the rendered output is exactly
those contributing column bodies — non-column children ignored — joined with
newlines, indented by two additional spaces, and entirely replacing the
column_list's own label text.  (When no child contributes, the label is
retained by lines 256/267 instead; that case is outside the claim's
composition statement.) -/
theorem c3_column_list_amended (block : JVal) (children : List JVal)
    (bodies : List String)
    (htype : block.get "type" = some (.str "column_list"))
    (hpayload : (block.get "column_list").isSome = true)
    (hkids : block.get "children" = some (.arr children))
    (hbodies : bodies = children.filterMap (fun cb =>
       if isStr (cb.get "type") "column" then
         let cc := extractTextFromBlock cb
         if cc ≠ "" ∧ cc ≠ "Column:" then some cc else none
       else none))
    (hne : bodies ≠ []) :
    extractTextFromBlock block = indent2 ("\n".intercalate bodies) := by
  have hpos := JVal.size_pos block
  obtain ⟨s, hs⟩ : ∃ s, block.size = s + 1 := ⟨block.size - 1, by omega⟩
  have hchildmem : ∀ cb ∈ children,
      extractTextFromBlockF s cb = extractTextFromBlock cb := by
    intro cb hcb
    have hlt : cb.size < block.size := by
      refine @mem_arrD_get_size_lt block "children" cb ?_
      rw [hkids]
      simpa [arrD] using hcb
    exact (extractTextFromBlock_eq_fuel cb s (by omega)).symm
  have hchildne : children ≠ [] := by
    intro hempty
    rw [hempty] at hbodies
    simp at hbodies
    exact hne hbodies
  have hguard : ¬("column_list" = "" ∨
      (block.get "column_list").isNone = true) := by
    obtain ⟨p, hp⟩ := Option.isSome_iff_exists.mp hpayload
    simp [hp]
  have hct : children.filterMap (fun cb =>
      if isStr (cb.get "type") "column" then
        let cc := extractTextFromBlockF s cb
        if cc ≠ "" ∧ cc ≠ "Column:" then some cc else none
      else none) = bodies := by
    rw [hbodies]
    apply List.filterMap_congr
    intro cb hcb
    simp only [hchildmem cb hcb]
  show extractTextFromBlockF block.size block = _
  rw [hs]
  simp only [extractTextFromBlockF, htype, if_neg hguard]
  simp [composeChildren, hkids, arrD, truthyO, JVal.truthy, hchildne, hct,
    hne, textBlockTypes]

/-- C3 (witness): the two-column example with a stray paragraph child
renders as the two column bodies, newline-joined, two-space-indented, with
the `Column List:` label replaced. -/
theorem c3_column_list_witness :
    extractTextFromBlock columnListTwoExample = "    left\n    right" :=
  c3_column_list_amended columnListTwoExample
    [columnBlockOf (paraBlock "left"), paraBlock "stray",
     columnBlockOf (paraBlock "right")]
    ["  left", "  right"] rfl rfl rfl rfl (by decide)

/-- C9: `RenderBlock` is a pure function of its single Block argument.  The
source (processor.py lines 13-275) performs no network access and never
writes into `block` or any borrowed child page — it only reads via `get` and
indexing and builds fresh local lists — so its translation is this total
function of the block value, and two successive calls on an unchanged Block
are definitionally the same string. -/
theorem c9_render_pure (block : JVal) :
    extractTextFromBlock block = extractTextFromBlock block := rfl

/-- C10: a Block whose `type` field is absent, or whose dictionary lacks a
key equal to its own type string, renders as the empty string — not the
`[<type>]` fallback, and with no key-lookup error (the guard of
processor.py lines 26-27 returns before `block[block_type]`). -/
theorem c10_missing_payload_renders_empty (block : JVal)
    (h : block.get "type" = none ∨
         ∃ s, block.get "type" = some (.str s) ∧ block.get s = none) :
    extractTextFromBlock block = "" := by
  obtain ⟨m, hm⟩ : ∃ m, block.size = m + 1 :=
    ⟨block.size - 1, by have := JVal.size_pos block; omega⟩
  unfold extractTextFromBlock
  rw [hm]
  rcases h with h | ⟨s, h1, h2⟩
  · simp [extractTextFromBlockF, h]
  · simp [extractTextFromBlockF, h1, h2]

/-- C10 (witness): a block with no `type` key, and one whose `type` string
has no matching payload key, both render as the empty string. -/
theorem c10_missing_payload_witness :
    extractTextFromBlock (JVal.obj [("id", .str "x")]) = "" ∧
    extractTextFromBlock
      (JVal.obj [("type", .str "paragraph"), ("id", .str "x")]) = "" :=
  ⟨c10_missing_payload_renders_empty _ (Or.inl rfl),
   c10_missing_payload_renders_empty _ (Or.inr ⟨"paragraph", rfl, rfl⟩)⟩

/-- C8: a Block carrying a payload under a type outside the recognized
enumeration, with no attached children, renders as the `[<type>]` fallback
fragment rather than raising. -/
theorem c8_unknown_type_fallback (block : JVal) (t : String)
    (htype : block.get "type" = some (.str t))
    (ht : t ≠ "")
    (hmem : t ∉ recognizedBlockTypes)
    (hpayload : (block.get t).isSome = true)
    (hkids : truthyO (block.get "children") = false) :
    extractTextFromBlock block = "[" ++ t ++ "]" := by
  obtain ⟨m, hm⟩ : ∃ m, block.size = m + 1 :=
    ⟨block.size - 1, by have := JVal.size_pos block; omega⟩
  obtain ⟨p, hp⟩ := Option.isSome_iff_exists.mp hpayload
  simp only [recognizedBlockTypes, textBlockTypes, List.cons_append,
    List.nil_append, List.mem_cons, List.not_mem_nil, or_false, not_or] at hmem
  unfold extractTextFromBlock
  rw [hm]
  simp [extractTextFromBlockF, composeChildren, htype, hp, ht, hmem,
    textBlockTypes, hkids]

/-- C8 (witness): the spec's `unsupported_widget` block renders as
`[unsupported_widget]`. -/
theorem c8_unknown_type_witness :
    extractTextFromBlock
      (JVal.obj [("type", .str "unsupported_widget"),
                 ("unsupported_widget", .obj [])]) = "[unsupported_widget]" :=
  c8_unknown_type_fallback _ "unsupported_widget" rfl (by decide) (by decide)
    rfl rfl

/-- Well-formedness of one fetch step relative to the incoming visited set:
the set only grows, the expansion log holds no duplicates, and every logged
identifier was new and is visited afterwards.  This is the bookkeeping behind
the visited-set guard of `get_page_content`. -/
def ResOk (v : List String) (r : FetchResult) : Prop :=
  v ⊆ r.visited ∧ r.expanded.Nodup ∧
    ∀ x ∈ r.expanded, x ∉ v ∧ x ∈ r.visited

/-- A result that changes nothing is well-formed. -/
theorem ResOk.base (v : List String) (blocks : List JVal) :
    ResOk v ⟨blocks, v, []⟩ :=
  ⟨List.Subset.refl v, List.nodup_nil, by simp⟩

/-- Sequencing two well-formed steps (the second starting from the first's
visited set) is well-formed: logs stay duplicate-free because the first
step's identifiers are visited before the second step begins. -/
theorem ResOk.seq {v : List String} {r1 r2 : FetchResult}
    (h1 : ResOk v r1) (h2 : ResOk r1.visited r2) (blocks : List JVal) :
    ResOk v ⟨blocks, r2.visited, r1.expanded ++ r2.expanded⟩ := by
  obtain ⟨s1, n1, f1⟩ := h1
  obtain ⟨s2, n2, f2⟩ := h2
  refine ⟨fun x hx => s2 (s1 hx), ?_, ?_⟩
  · exact n1.append n2 (fun x hx1 hx2 => (f2 x hx2).1 (f1 x hx1).2)
  · intro x hx
    rcases List.mem_append.mp hx with hx1 | hx2
    · exact ⟨(f1 x hx1).1, s2 (f1 x hx1).2⟩
    · exact ⟨fun hv => (f2 x hx2).1 (s1 hv), (f2 x hx2).2⟩

/-- A well-formed step stays well-formed when only its block list changes. -/
theorem ResOk.reblocks {v : List String} {r : FetchResult}
    (h : ResOk v r) (blocks : List JVal) :
    ResOk v ⟨blocks, r.visited, r.expanded⟩ := h

/-- Sequencing three well-formed steps. -/
theorem ResOk.seq3 {v : List String} {r1 r2 r3 : FetchResult}
    (h1 : ResOk v r1) (h2 : ResOk r1.visited r2) (h3 : ResOk r2.visited r3)
    (blocks : List JVal) :
    ResOk v ⟨blocks, r3.visited, r1.expanded ++ r2.expanded ++ r3.expanded⟩ :=
  ResOk.seq (ResOk.seq h1 h2 []) h3 blocks

/-- The database-page loop preserves fetch well-formedness. -/
theorem attachDatabasePages_resOk
    (f : String → List String → FetchResult)
    (hf : ∀ id v, ResOk v (f id v)) :
    ∀ pages v, ResOk v (attachDatabasePages f pages v) := by
  intro pages
  induction pages with
  | nil => intro v; exact ResOk.base v []
  | cons p rest ih =>
      intro v
      simp only [attachDatabasePages]
      split
      · split
        · exact ResOk.seq (hf _ v) (ih _) _
        · exact (ih v).reblocks _
      · exact (ih v).reblocks _

/-- The `child_database` pass preserves fetch well-formedness. -/
theorem expandDatabases_resOk (env : NotionEnv)
    (f : String → List String → FetchResult)
    (hf : ∀ id v, ResOk v (f id v)) :
    ∀ bs v, ResOk v (expandDatabases env f bs v) := by
  intro bs
  induction bs with
  | nil => intro v; exact ResOk.base v []
  | cons b rest ih =>
      intro v
      simp only [expandDatabases]
      split
      · split
        · split
          · exact ResOk.seq (attachDatabasePages_resOk f hf _ v) (ih _) _
          · exact (ih v).reblocks _
        · exact (ih v).reblocks _
      · exact (ih v).reblocks _

/-- The column expansion preserves fetch well-formedness. -/
theorem expandColumns_resOk
    (f : String → List String → FetchResult)
    (hf : ∀ id v, ResOk v (f id v)) :
    ∀ cs v, ResOk v (expandColumns f cs v) := by
  intro cs
  induction cs with
  | nil => intro v; exact ResOk.base v []
  | cons c rest ih =>
      intro v
      simp only [expandColumns]
      split
      · split
        · exact ResOk.seq (hf _ v) (ih _) _
        · exact (ih v).reblocks _
      · exact (ih v).reblocks _

/-- The `has_children` pass preserves fetch well-formedness. -/
theorem expandChildrenList_resOk
    (f : String → List String → FetchResult)
    (hf : ∀ id v, ResOk v (f id v)) :
    ∀ bs v, ResOk v (expandChildrenList f bs v) := by
  intro bs
  induction bs with
  | nil => intro v; exact ResOk.base v []
  | cons b rest ih =>
      intro v
      simp only [expandChildrenList]
      split
      · split
        · split
          · split
            · split
              · exact ResOk.seq (hf _ v) (ih _) _
              · exact (ih v).reblocks _
            · exact (ih v).reblocks _
          · split
            · exact ResOk.seq (hf _ v) (ih _) _
            · exact (ih v).reblocks _
        · split
          · split
            · exact ResOk.seq (hf _ v) (ih _) _
            · exact (ih v).reblocks _
          · split
            · split
              · exact ResOk.seq3 (hf _ v) (expandColumns_resOk f hf _ _) (ih _) _
              · exact (ih v).reblocks _
            · split
              · exact ResOk.seq (hf _ v) (ih _) _
              · exact (ih v).reblocks _
      · exact (ih v).reblocks _

/-- Every fetch at any fuel level is well-formed: the visited set only grows,
and the expansion log is duplicate-free with every entry new. -/
theorem fetchChildrenGo_resOk (env : NotionEnv) :
    ∀ fuel id v, ResOk v (fetchChildrenGo env fuel id v) := by
  intro fuel
  induction fuel with
  | zero => intro id v; exact ResOk.base v []
  | succ n ih =>
      intro id v
      simp only [fetchChildrenGo]
      split
      · exact ResOk.base v []
      · rename_i hnot
        have hsub : v ⊆ id :: v := List.subset_cons_self id v
        have h1 := expandDatabases_resOk env _ ih (paginate (env.listChildren id)) (id :: v)
        have h2 := expandChildrenList_resOk _ ih
          (expandDatabases env (fetchChildrenGo env n) (paginate (env.listChildren id)) (id :: v)).blocks
          (expandDatabases env (fetchChildrenGo env n) (paginate (env.listChildren id)) (id :: v)).visited
        have hseq := ResOk.seq h1 h2 []
        obtain ⟨s12, n12, f12⟩ := hseq
        refine ⟨fun x hx => s12 (hsub hx), ?_, ?_⟩
        · refine List.nodup_cons.mpr ⟨?_, n12⟩
          intro hmem
          exact (f12 _ hmem).1 (List.mem_cons_self id v)
        · intro x hx
          rcases List.mem_cons.mp hx with rfl | hx2
          · exact ⟨hnot, s12 (List.mem_cons_self x v)⟩
          · exact ⟨fun hv => (f12 x hx2).1 (List.mem_cons_of_mem id hv), (f12 x hx2).2⟩

/-- A synced-block reference: block `id` whose `synced_from` names `ref`. -/
def syncedRef (id ref : String) : JVal :=
  .obj [("id", .str id), ("type", .str "synced_block"),
        ("has_children", .bool true),
        ("synced_block", .obj [("synced_from", .obj [("block_id", .str ref)])])]

/-- A store with a synced-block reference cycle: the page `A` holds a block
referencing `B`, and the page `B` holds a block referencing `A`. -/
def cycleEnv : NotionEnv :=
  { listChildren := fun id =>
      if id = "A" then [⟨200, [syncedRef "a1" "B"], false⟩]
      else if id = "B" then [⟨200, [syncedRef "b1" "A"], false⟩]
      else []
    dbInfo := fun _ => .obj []
    dbPages := fun _ => []
    pageInfo := fun _ => .obj []
    fuel := 10 }

/-- The finite tree fetching `A` in `cycleEnv` produces: `a1` carrying `B`'s
content, whose own back-reference to `A` stays unexpanded (the visited set
contains `A` by then). -/
def cycleExpandedBlock : JVal :=
  .obj [("id", .str "a1"), ("type", .str "synced_block"),
        ("has_children", .bool true),
        ("synced_block", .obj [("synced_from", .obj [("block_id", .str "B")])]),
        ("children", .arr [syncedRef "b1" "A"])]

/-- C2: for every identifier already in the visited set, `get_page_content`
returns the empty sequence at once — no children-listing request is issued
(the expansion log is empty) and the visited set is unchanged; the expansion
log of any fetch is duplicate-free, so no identifier is expanded twice within
one root-fetch scope; and fetching the synced-block cycle `A ↔ B` terminates
at every sufficient budget with the same finite tree, expanding `A` and `B`
exactly once each. -/
theorem c2_visited_guard_and_cycle_safety :
    (∀ (env : NotionEnv) (fuel : Nat) (blockId : String) (visited : List String),
       blockId ∈ visited →
       fetchChildrenGo env fuel blockId visited = ⟨[], visited, []⟩) ∧
    (∀ (env : NotionEnv) (fuel : Nat) (blockId : String) (visited : List String),
       (fetchChildrenGo env fuel blockId visited).expanded.Nodup) ∧
    (∀ n : Nat, fetchChildrenGo cycleEnv (n + 2) "A" [] =
       ⟨[cycleExpandedBlock], ["B", "A"], ["A", "B"]⟩) := by
  refine ⟨?_, ?_, ?_⟩
  · intro env fuel blockId visited h
    cases fuel with
    | zero => rfl
    | succ n => simp [fetchChildrenGo, h]
  · intro env fuel blockId visited
    exact (fetchChildrenGo_resOk env fuel blockId visited).2.1
  · intro n
    simp [fetchChildrenGo, cycleEnv, cycleExpandedBlock, paginate,
      expandDatabases, expandChildrenList, syncedRef, isStr, truthyO,
      JVal.truthy, JVal.get, lookupKV, extendChildren, childrenArr, arrD,
      JVal.set, setKV]

/-- C2 (witness): fetching an identifier that is already in the visited set
returns the empty sequence, the unchanged set, and an empty expansion log. -/
theorem c2_visited_guard_witness :
    fetchChildrenGo cycleEnv 5 "A" ["A"] = ⟨[], ["A"], []⟩ :=
  c2_visited_guard_and_cycle_safety.1 cycleEnv 5 "A" ["A"] (by decide)

/-- When every response in a chain succeeds, all but the last report more
pages, and the last reports no more, the pagination loop accumulates every
response's results, in order. -/
theorem paginate_complete (rs : List PageResp) (rlast : PageResp)
    (hall : ∀ r ∈ rs, r.status = 200 ∧ r.hasMore = true)
    (hstat : rlast.status = 200) (hmore : rlast.hasMore = false) :
    paginate (rs ++ [rlast]) = ((rs ++ [rlast]).map (fun r => r.results)).flatten := by
  induction rs with
  | nil => simp [paginate, hstat, hmore]
  | cons r rest ih =>
      have hr := hall r (List.mem_cons_self r rest)
      have hrest : ∀ x ∈ rest, x.status = 200 ∧ x.hasMore = true :=
        fun x hx => hall x (List.mem_cons_of_mem r hx)
      simp [paginate, hr.1, hr.2, ih hrest]

/-- When a response chain fails at some position, the pagination loop keeps
exactly the results accumulated from the earlier (successful, more-pages)
responses. -/
theorem paginate_stops_on_error (good : List PageResp) (bad : PageResp)
    (rest : List PageResp)
    (hg : ∀ r ∈ good, r.status = 200 ∧ r.hasMore = true)
    (hb : bad.status ≠ 200) :
    paginate (good ++ bad :: rest) = (good.map (fun r => r.results)).flatten := by
  induction good with
  | nil => simp [paginate, hb]
  | cons r grest ih =>
      have hr := hg r (List.mem_cons_self r grest)
      have hgr : ∀ x ∈ grest, x.status = 200 ∧ x.hasMore = true :=
        fun x hx => hg x (List.mem_cons_of_mem r hx)
      simp [paginate, hr.1, hr.2, ih hgr]

/-- The `child_database` pass leaves a block list without `child_database`
blocks untouched: same blocks, same visited set, nothing expanded. -/
theorem expandDatabases_skip (env : NotionEnv)
    (f : String → List String → FetchResult) (bs : List JVal) (v : List String)
    (h : ∀ b ∈ bs, isStr (b.get "type") "child_database" = false) :
    expandDatabases env f bs v = ⟨bs, v, []⟩ := by
  induction bs with
  | nil => rfl
  | cons b rest ih =>
      have hb := h b (List.mem_cons_self b rest)
      have hrest := fun x hx => h x (List.mem_cons_of_mem b hx)
      simp [expandDatabases, hb, ih hrest]

/-- The `has_children` pass leaves a block list whose blocks all have falsy
`has_children` untouched. -/
theorem expandChildrenList_skip
    (f : String → List String → FetchResult) (bs : List JVal) (v : List String)
    (h : ∀ b ∈ bs, truthyO (b.get "has_children") = false) :
    expandChildrenList f bs v = ⟨bs, v, []⟩ := by
  induction bs with
  | nil => rfl
  | cons b rest ih =>
      have hb := h b (List.mem_cons_self b rest)
      have hrest := fun x hx => h x (List.mem_cons_of_mem b hx)
      simp [expandChildrenList, hb, ih hrest]

/-- A block that triggers neither expansion pass: not a `child_database` and
without truthy `has_children`. -/
def plainBlock (b : JVal) : Prop :=
  isStr (b.get "type") "child_database" = false ∧
  truthyO (b.get "has_children") = false

instance (b : JVal) : Decidable (plainBlock b) := by
  unfold plainBlock; infer_instance

/-- C4: when every children-listing request succeeds, `get_page_content`
follows the continuation chain until the API reports no more pages and
returns exactly the concatenation of all responses' results, in response
order, with no reordering (stated for blocks that trigger no further
expansion, so the returned sequence is literally that concatenation). -/
theorem c4_pagination_completeness (env : NotionEnv) (blockId : String)
    (visited : List String) (fuel : Nat) (rs : List PageResp) (rlast : PageResp)
    (hchain : env.listChildren blockId = rs ++ [rlast])
    (hall : ∀ r ∈ rs, r.status = 200 ∧ r.hasMore = true)
    (hstat : rlast.status = 200) (hmore : rlast.hasMore = false)
    (hv : blockId ∉ visited)
    (hplain : ∀ b ∈ ((rs ++ [rlast]).map (fun r => r.results)).flatten, plainBlock b) :
    (fetchChildrenGo env (fuel + 1) blockId visited).blocks =
      ((rs ++ [rlast]).map (fun r => r.results)).flatten := by
  have hpag : paginate (env.listChildren blockId) =
      ((rs ++ [rlast]).map (fun r => r.results)).flatten := by
    rw [hchain]; exact paginate_complete rs rlast hall hstat hmore
  simp only [fetchChildrenGo, if_neg hv, hpag]
  rw [expandDatabases_skip env _ _ _ (fun b hb => (hplain b hb).1),
    expandChildrenList_skip _ _ _ (fun b hb => (hplain b hb).2)]

/-- A three-page mocked source for the root `R`. -/
def threePageEnv : NotionEnv :=
  { listChildren := fun id =>
      if id = "R" then
        [⟨200, [paraBlock "p1"], true⟩, ⟨200, [paraBlock "p2"], true⟩,
         ⟨200, [paraBlock "p3"], false⟩]
      else []
    dbInfo := fun _ => .obj []
    dbPages := fun _ => []
    pageInfo := fun _ => .obj []
    fuel := 5 }

/-- C4 (witness): for the mocked source returning 3 pages of children, the
fetched result equals the union of all 3 pages in original order. -/
theorem c4_pagination_witness :
    (fetchChildrenGo threePageEnv 1 "R" []).blocks =
      [paraBlock "p1", paraBlock "p2", paraBlock "p3"] :=
  c4_pagination_completeness threePageEnv "R" [] 0
    [⟨200, [paraBlock "p1"], true⟩, ⟨200, [paraBlock "p2"], true⟩]
    ⟨200, [paraBlock "p3"], false⟩ rfl (by decide) rfl rfl (by decide) (by decide)

/-- A toggle block `b1` that has children to fetch. -/
def toggleB1 : JVal :=
  .obj [("id", .str "b1"), ("type", .str "toggle"),
        ("has_children", .bool true),
        ("toggle", .obj [("rich_text", .arr [rtext "t"])])]

/-- `toggleB1` after child expansion attached the one fetched paragraph. -/
def toggleB1Expanded : JVal :=
  .obj [("id", .str "b1"), ("type", .str "toggle"),
        ("has_children", .bool true),
        ("toggle", .obj [("rich_text", .arr [rtext "t"])]),
        ("children", .arr [paraBlock "x"])]

/-- A store where listing `b1`'s children fails on the second page (HTTP
500) while its sibling `y` under the shared parent `R` is unaffected. -/
def truncatedEnv : NotionEnv :=
  { listChildren := fun id =>
      if id = "R" then [⟨200, [toggleB1, paraBlock "y"], false⟩]
      else if id = "b1" then
        [⟨200, [paraBlock "x"], true⟩, ⟨500, [], false⟩]
      else []
    dbInfo := fun _ => .obj []
    dbPages := fun _ => []
    pageInfo := fun _ => .obj []
    fuel := 5 }

/-- C5: when a children-listing request fails mid-pagination (non-200),
`get_page_content` stops paginating that node, keeps the items accumulated
from the earlier responses, still runs both child-expansion passes on them,
and returns them to the caller — the computation continues normally, no
exception crosses the recursion boundary.  Concretely, in `truncatedEnv` the
failure inside `b1`'s pagination leaves its sibling `y` and ancestor `R`
untouched: `R`'s fetch returns `b1` with its partial child plus `y`. -/
theorem c5_failure_keeps_accumulated_results :
    (∀ (env : NotionEnv) (blockId : String) (visited : List String)
       (fuel : Nat) (good : List PageResp) (bad : PageResp)
       (rest : List PageResp),
       env.listChildren blockId = good ++ bad :: rest →
       (∀ r ∈ good, r.status = 200 ∧ r.hasMore = true) →
       bad.status ≠ 200 →
       blockId ∉ visited →
       fetchChildrenGo env (fuel + 1) blockId visited =
         (let bs := (good.map (fun r => r.results)).flatten
          let r1 := expandDatabases env (fetchChildrenGo env fuel) bs
            (blockId :: visited)
          let r2 := expandChildrenList (fetchChildrenGo env fuel) r1.blocks
            r1.visited
          ⟨r2.blocks, r2.visited, blockId :: (r1.expanded ++ r2.expanded)⟩)) ∧
    (∀ n : Nat, fetchChildrenGo truncatedEnv (n + 2) "R" [] =
       ⟨[toggleB1Expanded, paraBlock "y"], ["b1", "R"], ["R", "b1"]⟩) := by
  constructor
  · intro env blockId visited fuel good bad rest hchain hg hb hv
    have hpag : paginate (env.listChildren blockId) =
        (good.map (fun r => r.results)).flatten := by
      rw [hchain]; exact paginate_stops_on_error good bad rest hg hb
    simp only [fetchChildrenGo, if_neg hv, hpag]
  · intro n
    simp [fetchChildrenGo, truncatedEnv, toggleB1, toggleB1Expanded, paraBlock,
      rtext, paginate, expandDatabases, expandChildrenList, isStr, truthyO,
      JVal.truthy, JVal.get, lookupKV, extendChildren, childrenArr, arrD,
      JVal.set, setKV]

/-- C5 (witness): fetching `b1` in `truncatedEnv` keeps the first page's
paragraph even though the second page request returns HTTP 500. -/
theorem c5_failure_witness :
    fetchChildrenGo truncatedEnv 1 "b1" [] = ⟨[paraBlock "x"], ["b1"], ["b1"]⟩ :=
  c5_failure_keeps_accumulated_results.1 truncatedEnv "b1" [] 0
    [⟨200, [paraBlock "x"], true⟩] ⟨500, [], false⟩ [] rfl (by decide)
    (by decide) (by decide)

/-- C6: with no credential in the request (absent or the falsy empty string)
and none configured in the environment, the inbound operation fails as a
client error carrying the `ValueError` text of `NotionRAG.__init__` — and,
since construction raises before the API client is used, the outcome is the
same for every remote store and the request log is empty: no network request
was attempted. -/
theorem c6_missing_credential_no_network (env : NotionEnv)
    (req : NotionContentRequest)
    (hkey : req.notion_api_key = none ∨ req.notion_api_key = some "") :
    processNotionContent none env req = ((400, missingKeyError), []) := by
  rcases hkey with h | h <;> simp [processNotionContent, notionRagInit, h]

/-- C6 (witness): a bare request against a store with content still fails
with the missing-credential client error and an empty request log. -/
theorem c6_missing_credential_witness :
    processNotionContent none threePageEnv ⟨none, none, none⟩ =
      ((400, missingKeyError), []) :=
  c6_missing_credential_no_network threePageEnv ⟨none, none, none⟩ (Or.inl rfl)

/-- The document `process_direct_page_to_document` builds for one page id. -/
def directDocumentOf (env : NotionEnv) (pageId : String) : Document :=
  processDirectPageToDocument (env.pageInfo pageId)
    (getPageContent env pageId []).blocks

/-- The error line `index_notion_content` prints for a page id whose
resolution failed (notion_rag.py line 125). -/
def pageFailureReport (pageId : String) : String :=
  "Error processing page " ++ pageId ++ ": " ++ pageNotFoundMsg pageId

/-- The per-page loop splits its input exactly: a document for every page id
whose resolution succeeds, an error report for every one that fails, each in
input order. -/
theorem indexPagesLoop_parts (env : NotionEnv) :
    ∀ pageIds : List String,
      (indexPagesLoop env pageIds).1 =
        (pageIds.filter (fun pid => (env.pageInfo pid).truthy)).map
          (directDocumentOf env) ∧
      (indexPagesLoop env pageIds).2.1 =
        (pageIds.filter (fun pid => !(env.pageInfo pid).truthy)).map
          pageFailureReport := by
  intro pageIds
  induction pageIds with
  | nil => exact ⟨rfl, rfl⟩
  | cons pid rest ih =>
      by_cases h : (env.pageInfo pid).truthy = true
      · simp [indexPagesLoop, ragProcessDirectPage, h, ih.1, ih.2,
          directDocumentOf, List.filter_cons]
      · simp only [Bool.not_eq_true] at h
        simp [indexPagesLoop, ragProcessDirectPage, h, ih.1, ih.2,
          pageFailureReport, List.filter_cons]

/-- Page metadata for the resolvable page id `good`. -/
def goodPageInfo : JVal :=
  .obj [("id", .str "good"),
        ("properties", .obj [("Name", .obj [("type", .str "title"),
          ("title", .arr [rtext "Good Page"])])])]

/-- A store where the page id `good` resolves (one paragraph of content) and
every other id fails to resolve. -/
def c7Env : NotionEnv :=
  { listChildren := fun id =>
      if id = "good" then [⟨200, [paraBlock "Hello"], false⟩] else []
    dbInfo := fun _ => .obj []
    dbPages := fun _ => []
    pageInfo := fun id => if id = "good" then goodPageInfo else .obj []
    fuel := 3 }

/-- C7: when indexing a list of explicit page ids, a failure resolving one id
is reported for that id only and the remaining ids are still processed:
the returned contents are exactly the rendered documents of the ids that
resolve, in order, and the error reports are exactly the failure lines of the
ids that do not.  Concretely, with one valid and one invalid page id the
combined result holds the valid page's rendered text and one reported,
non-fatal failure for the invalid id. -/
theorem c7_per_root_failure_isolation :
    (∀ (env : NotionEnv) (pageIds : List String),
      (indexNotionContent env [] pageIds).1 =
        (let ok := pageIds.filter (fun pid => (env.pageInfo pid).truthy)
         if ok.isEmpty then none
         else some (ok.map (fun pid => (directDocumentOf env pid).page_content))) ∧
      (indexNotionContent env [] pageIds).2.1 =
        (pageIds.filter (fun pid => !(env.pageInfo pid).truthy)).map
          pageFailureReport) ∧
    indexNotionContent c7Env [] ["good", "bad"] =
      (some ["Good Page\n\nHello"], [pageFailureReport "bad"],
       ["retrieve_page good", "list_children good", "retrieve_page bad"]) := by
  constructor
  · intro env pageIds
    obtain ⟨hdocs, herrs⟩ := indexPagesLoop_parts env pageIds
    constructor
    · simp [indexNotionContent, hdocs, List.map_map]
      rfl
    · simp [indexNotionContent, herrs]
  · rfl
